import Mathlib

/-!
Shallow embedding of the retrieval agent of the llm-explorer repository.

The embedded code is:
- `src/lib/query-agent.ts` — `ForagerQueryAgent.searchPages` and
  `ForagerQueryAgent.processQuery`;
- `src/lib/openai.ts` — `identifyRelevantPages` (the triage call and its
  response decoding);
- `src/server/router.ts` — the `queryDocument` procedure (corpus assembly and
  the empty-corpus check).

Modelling conventions:
- JavaScript strings are modelled as Lean `String`; the JavaScript string
  operations used by the agent (`toLowerCase`, `split`, `includes`,
  `substring`, `length`) are modelled by explicit structurally recursive
  functions over `String.data` so that every definition evaluates inside the
  kernel.  JavaScript measures length in UTF-16 code units while the model
  counts characters; the two agree on the ASCII inputs the theorems use.
- JavaScript numbers are modelled as `Int` where the source holds page
  numbers or integer scores, and as `ℚ` where the source divides a score by
  the keyword count.  The division `relevanceScore / keywords.length` is
  modelled exactly by `Rat.divInt`; within one query all scanned scores share
  the denominator `keywords.length`, so exact rational comparison coincides
  with IEEE double comparison on these values.
- The two external model calls are inputs of the embedded functions: the
  triage call outcome is a `TriageOutcome` (threw / returned no text /
  returned text) and the completion call outcome is an `Option String`
  (`none` models a response with no message content).  The pipeline also
  returns the list of external calls it issued, so that claims about which
  services are contacted are statable.
- `JSON.parse` followed by the `Array.isArray` check is modelled by the
  classifier `jsJsonParse`, faithful to the JSON grammar on ASCII input: a
  response text is an integer array (with its values), an array containing a
  non-integer element, a valid non-array value, or a parse error.  The source
  accepts any decoded array as-is and maps both a parse failure and a
  non-array value to the fallback `[1, 2, 3]`.  An array with a non-integer
  element is accepted as-is by the source too; its entries have no
  counterpart among the integer page numbers of this embedding, so no theorem
  draws conclusions from that case.  Documented bounds of the classifier:
  string escape sequences are consumed without validation, and number values
  are computed exactly (a number is an integer exactly when its mathematical
  value is one), rather than as IEEE doubles.
-/

namespace LLMExplorer

/-- Models `Char` lowering as performed by JavaScript `toLowerCase` on the
ASCII range: the uppercase letters `A`–`Z` are shifted to lowercase, every
other character is kept. -/
def charLower (c : Char) : Char :=
  if 'A' ≤ c ∧ c ≤ 'Z' then Char.ofNat (c.toNat + 32) else c

/-- Models JavaScript `String.prototype.toLowerCase` (ASCII range). -/
def jsToLower (s : String) : String :=
  ⟨s.data.map charLower⟩

/-- Sub-list containment test: `true` iff `sub` occurs contiguously in `l`. -/
def listContainsSeq (sub l : List Char) : Bool :=
  (List.range (l.length + 1)).any (fun i => sub.isPrefixOf (l.drop i))

/-- Models JavaScript `String.prototype.includes`. -/
def jsIncludes (s sub : String) : Bool :=
  listContainsSeq sub.data s.data

/-- Models JavaScript `String.prototype.substring(0, n)`. -/
def jsSubstr (s : String) (n : Nat) : String :=
  ⟨s.data.take n⟩

/-- Models JavaScript `String.prototype.length` (character count; agrees with
the UTF-16 code-unit count on ASCII input). -/
def jsStrLen (s : String) : Nat :=
  s.data.length

/-- Splits a character list at every space character; models the list
structure produced by JavaScript `split(' ')`, which keeps empty fragments
between consecutive separators and yields one empty fragment for the empty
string. -/
def splitSpaceChars : List Char → List (List Char)
  | [] => [[]]
  | c :: cs =>
    let rest := splitSpaceChars cs
    if c = ' ' then [] :: rest
    else
      match rest with
      | [] => [[c]]
      | w :: ws => (c :: w) :: ws

/-- Models JavaScript `String.prototype.split(' ')`. -/
def jsSplitSpace (s : String) : List String :=
  (splitSpaceChars s.data).map (fun w => ⟨w⟩)

/-- One page of a processed document; `src/types/document.ts`,
`interface DocumentPage`. -/
structure DocumentPage where
  pageNbr : Int
  pageContentNbr : Option Int := none
  content : String
  summary : String
  tags : List String
  references : List String
deriving DecidableEq

/-- One element of the `sources` array assembled by `processQuery`
(`src/lib/query-agent.ts`, the inline type
`{ pageNbr, content, relevance }`). -/
structure SourceItem where
  pageNbr : Int
  content : String
  relevance : ℚ
deriving DecidableEq

/-- `QueryAgentResult` of `src/lib/query-agent.ts`. -/
structure QueryAgentResult where
  answer : String
  relevantPages : List Int
  sources : List SourceItem
  steps : Nat
deriving DecidableEq

instance {ε α : Type} [DecidableEq ε] [DecidableEq α] : DecidableEq (Except ε α) :=
  fun x y =>
    match x, y with
    | .ok a, .ok b =>
      if h : a = b then isTrue (by rw [h]) else isFalse (fun hc => h (Except.ok.inj hc))
    | .error a, .error b =>
      if h : a = b then isTrue (by rw [h]) else isFalse (fun hc => h (Except.error.inj hc))
    | .ok _, .error _ => isFalse (fun hc => Except.noConfusion hc)
    | .error _, .ok _ => isFalse (fun hc => Except.noConfusion hc)

/-- One entry of `searchPages` results (`src/lib/query-agent.ts`, lines
71–91): `{ pageNbr, relevance, summary }`. -/
structure SearchResult where
  pageNbr : Int
  relevance : Int
  summary : String
deriving DecidableEq

/-- Points awarded to one page for one keyword by
`ForagerQueryAgent.searchPages` (`src/lib/query-agent.ts`, lines 79–84):
the keyword is lowercased, then content match gives 3, summary match 2, a
tag containing the keyword 1. -/
def searchKeywordPoints (page : DocumentPage) (keyword : String) : Int :=
  let keywordLower := jsToLower keyword
  (if jsIncludes (jsToLower page.content) keywordLower then 3 else 0) +
  (if jsIncludes (jsToLower page.summary) keywordLower then 2 else 0) +
  (if (page.tags.map jsToLower).any (fun tag => jsIncludes tag keywordLower)
    then 1 else 0)

/-- The per-page relevance accumulated by `searchPages` over all keywords
(`src/lib/query-agent.ts`, lines 78–84: `let relevance = 0` followed by
`keywords.forEach` with `relevance +=` updates). -/
def searchPageScore (page : DocumentPage) (keywords : List String) : Int :=
  keywords.foldl (fun relevance kw => relevance + searchKeywordPoints page kw) 0

/-- Stable insertion of `x` into `l` for a descending order on `key`: `x` is
placed after every element whose key is strictly greater and before the
first element whose key is less than or equal.  Models the stable descending
sort `sort((a, b) => b.relevance - a.relevance)` of JavaScript (ECMAScript
stable `Array.prototype.sort`). -/
def insertDescBy {α β : Type} [LinearOrder β] (key : α → β) (x : α) :
    List α → List α
  | [] => [x]
  | y :: ys => if key x < key y then y :: insertDescBy key x ys else x :: y :: ys

/-- Stable descending sort by `key`; models the stable
`Array.prototype.sort` with comparator `(a, b) => key(b) - key(a)`. -/
def sortDescBy {α β : Type} [LinearOrder β] (key : α → β) : List α → List α
  | [] => []
  | x :: xs => insertDescBy key x (sortDescBy key xs)

/-- `ForagerQueryAgent.searchPages` (`src/lib/query-agent.ts`, lines 71–91):
score every page, keep strictly positive scores, sort descending by
relevance, keep the first 10. -/
def searchPages (documents : List DocumentPage) (keywords : List String) :
    List SearchResult :=
  (sortDescBy (fun r => r.relevance)
    ((documents.map (fun page =>
        ({ pageNbr := page.pageNbr
           relevance := searchPageScore page keywords
           summary := page.summary } : SearchResult))).filter
      (fun result => result.relevance > 0))).take 10

/-- Points awarded to one page for one keyword by the keyword scan inside
`processQuery` (`src/lib/query-agent.ts`, lines 158–162): content match
gives 1, summary match 2, a tag containing the keyword 1.  Unlike
`searchPages`, the keyword is used as supplied (the caller lowercases the
whole query first). -/
def scanKeywordPoints (page : DocumentPage) (keyword : String) : Int :=
  (if jsIncludes (jsToLower page.content) keyword then 1 else 0) +
  (if jsIncludes (jsToLower page.summary) keyword then 2 else 0) +
  (if page.tags.any (fun tag => jsIncludes (jsToLower tag) keyword)
    then 1 else 0)

/-- The `relevanceScore` accumulated over all keywords by the scan inside
`processQuery` (`src/lib/query-agent.ts`, lines 157–162). -/
def scanPageScore (page : DocumentPage) (keywords : List String) : Int :=
  keywords.foldl (fun score kw => score + scanKeywordPoints page kw) 0

/-- Whitespace accepted around JSON tokens by `JSON.parse`. -/
def isJsonWs (c : Char) : Bool :=
  c = ' ' ∨ c = '\t' ∨ c = '\n' ∨ c = '\r'

/-- Drops leading JSON whitespace. -/
def skipWs : List Char → List Char
  | [] => []
  | c :: cs => if isJsonWs c then skipWs cs else c :: cs

/-- Consumes a run of decimal digits, accumulating their value. -/
def digitsVal : List Char → Nat → (Nat × List Char)
  | [], acc => (acc, [])
  | c :: cs, acc =>
    if c.isDigit then digitsVal cs (acc * 10 + (c.toNat - 48)) else (acc, c :: cs)

/-- Counts a run of decimal digits while accumulating their value; returns
the value, the digit count and the unconsumed suffix. -/
def digitsValCount : List Char → Nat → Nat → (Nat × Nat × List Char)
  | [], acc, cnt => (acc, cnt, [])
  | c :: cs, acc, cnt =>
    if c.isDigit then digitsValCount cs (acc * 10 + (c.toNat - 48)) (cnt + 1)
    else (acc, cnt, c :: cs)

/-- Shape of a decoded JSON value, at the granularity the agent distinguishes:
a number whose mathematical value is an integer (with that value), any other
JSON value (non-integer number, string, boolean, null, object, nested array
in element position), or an array of values. -/
inductive JsValShape
  | intNum (n : Int)
  | nonIntVal
  | arrayOf (elements : List JsValShape)

/-- Consumes the remainder of a JSON string literal after the opening quote;
escape sequences are consumed without validation (documented bound of the
model). -/
def parseStringRest : List Char → Option (List Char)
  | [] => none
  | '"' :: rest => some rest
  | '\\' :: _ :: rest => parseStringRest rest
  | '\\' :: [] => none
  | _ :: rest => parseStringRest rest

/-- Integer part of a JSON number: a single `0`, or a nonzero digit followed
by digits — the JSON no-leading-zero rule. -/
def parseIntPart : List Char → Option (Nat × List Char)
  | '0' :: cs => some (0, cs)
  | c :: cs => if c.isDigit then some (digitsVal (c :: cs) 0) else none
  | [] => none

/-- Optional fraction part of a JSON number: a dot must be followed by at
least one digit; returns the fraction value and its digit count. -/
def parseFracPart : List Char → Option (Nat × Nat × List Char)
  | '.' :: fs =>
    match fs with
    | c :: _ =>
      if c.isDigit then some (digitsValCount fs 0 0) else none
    | [] => none
  | cs => some (0, 0, cs)

/-- Digits of an exponent; at least one digit is required. -/
def parseExpDigits : List Char → Option (Nat × List Char)
  | c :: cs => if c.isDigit then some (digitsVal (c :: cs) 0) else none
  | [] => none

/-- Signed exponent digits after the exponent marker. -/
def parseExpSigned : List Char → Option (Int × List Char)
  | '+' :: ds => (parseExpDigits ds).map (fun (v, r) => ((v : Int), r))
  | '-' :: ds => (parseExpDigits ds).map (fun (v, r) => (-(v : Int), r))
  | ds => (parseExpDigits ds).map (fun (v, r) => ((v : Int), r))

/-- Optional exponent part of a JSON number. -/
def parseExpPart (cs : List Char) : Option (Int × List Char) :=
  match cs with
  | 'e' :: rest => parseExpSigned rest
  | 'E' :: rest => parseExpSigned rest
  | _ => some (0, cs)

/-- Classifies a parsed JSON number from its parts: the exact value
`(ipart.fdigits) * 10 ^ exp` is an integer or not.  Values are computed
exactly; the IEEE double rounding of very high-precision literals is a
documented bound of the model. -/
def classifyNumber (ipart fval fcnt : Nat) (exp : Int) : JsValShape :=
  let n : Nat := ipart * 10 ^ fcnt + fval
  let e2 : Int := exp - (fcnt : Int)
  if 0 ≤ e2 then JsValShape.intNum ((n : Int) * 10 ^ e2.toNat)
  else
    let d : Nat := 10 ^ (-e2).toNat
    if n % d = 0 then JsValShape.intNum ((n / d : Nat) : Int)
    else JsValShape.nonIntVal

/-- Negates an integer number shape; other shapes are unchanged. -/
def negateShape : JsValShape → JsValShape
  | JsValShape.intNum n => JsValShape.intNum (-n)
  | v => v

/-- Parses an unsigned JSON number: integer part, optional fraction,
optional exponent. -/
def parseNumberCore (cs : List Char) : Option (JsValShape × List Char) :=
  match parseIntPart cs with
  | none => none
  | some (ipart, rest1) =>
    match parseFracPart rest1 with
    | none => none
    | some (fval, fcnt, rest2) =>
      match parseExpPart rest2 with
      | none => none
      | some (exp, rest3) => some (classifyNumber ipart fval fcnt exp, rest3)

/-- Parses a JSON number with an optional leading minus sign. -/
def parseNumber : List Char → Option (JsValShape × List Char)
  | '-' :: rest => (parseNumberCore rest).map (fun (v, r) => (negateShape v, r))
  | cs => parseNumberCore cs

mutual

/-- Parses one JSON value (array, object, string, literal or number).  The
fuel argument bounds the recursion: every recursive call consumes at least
one character first, so a fuel of the input length plus two never runs out
on well-formed input. -/
def parseValue : Nat → List Char → Option (JsValShape × List Char)
  | 0, _ => none
  | fuel + 1, cs =>
    match cs with
    | '[' :: rest =>
      match skipWs rest with
      | ']' :: rest2 => some (JsValShape.arrayOf [], rest2)
      | cs2 =>
        match parseValue fuel cs2 with
        | some (v, rest2) =>
          match parseElems fuel rest2 with
          | some (vs, rest3) => some (JsValShape.arrayOf (v :: vs), rest3)
          | none => none
        | none => none
    | '{' :: rest =>
      match skipWs rest with
      | '}' :: rest2 => some (JsValShape.nonIntVal, rest2)
      | cs2 =>
        match parseMember fuel cs2 with
        | some rest2 =>
          match parseMembers fuel rest2 with
          | some rest3 => some (JsValShape.nonIntVal, rest3)
          | none => none
        | none => none
    | '"' :: rest =>
      match parseStringRest rest with
      | some rest2 => some (JsValShape.nonIntVal, rest2)
      | none => none
    | 't' :: 'r' :: 'u' :: 'e' :: rest => some (JsValShape.nonIntVal, rest)
    | 'f' :: 'a' :: 'l' :: 's' :: 'e' :: rest => some (JsValShape.nonIntVal, rest)
    | 'n' :: 'u' :: 'l' :: 'l' :: rest => some (JsValShape.nonIntVal, rest)
    | _ => parseNumber cs

/-- Parses the continuation of a JSON array after one element: a closing
bracket, or a comma followed by another element. -/
def parseElems : Nat → List Char → Option (List JsValShape × List Char)
  | 0, _ => none
  | fuel + 1, cs =>
    match skipWs cs with
    | ']' :: rest => some ([], rest)
    | ',' :: rest =>
      match parseValue fuel (skipWs rest) with
      | some (v, rest2) =>
        match parseElems fuel rest2 with
        | some (vs, rest3) => some (v :: vs, rest3)
        | none => none
      | none => none
    | _ => none

/-- Parses one JSON object member: a string key, a colon and a value. -/
def parseMember : Nat → List Char → Option (List Char)
  | 0, _ => none
  | fuel + 1, cs =>
    match cs with
    | '"' :: rest =>
      match parseStringRest rest with
      | some rest2 =>
        match skipWs rest2 with
        | ':' :: rest3 =>
          match parseValue fuel (skipWs rest3) with
          | some (_, rest4) => some rest4
          | none => none
        | _ => none
      | none => none
    | _ => none

/-- Parses the continuation of a JSON object after one member: a closing
brace, or a comma followed by another member. -/
def parseMembers : Nat → List Char → Option (List Char)
  | 0, _ => none
  | fuel + 1, cs =>
    match skipWs cs with
    | '}' :: rest => some rest
    | ',' :: rest =>
      match parseMember fuel (skipWs rest) with
      | some rest2 => parseMembers fuel rest2
      | none => none
    | _ => none

end

/-- Extracts the integer values of an element list when every element is an
integer number; `none` when some element is not. -/
def allInts : List JsValShape → Option (List Int)
  | [] => some []
  | JsValShape.intNum n :: vs => (allInts vs).map (fun l => n :: l)
  | _ => none

/-- Outcome of `JSON.parse` followed by the `Array.isArray` check, at the
granularity the agent distinguishes. -/
inductive JsParseResult
  | intArray (values : List Int)
  | otherArray
  | nonArray
  | parseError
deriving DecidableEq

/-- Models the `JSON.parse` call of `identifyRelevantPages`
(`src/lib/openai.ts`, lines 441–442) together with the `Array.isArray`
check, classifying the response text: a JSON array all of whose elements are
integer-valued numbers (with those values), a JSON array containing some
other element, a valid non-array JSON value, or a text on which `JSON.parse`
throws.  Faithful to the JSON grammar on ASCII input, with two documented
bounds: string escape sequences are consumed without validation, and number
values are computed exactly rather than as IEEE doubles. -/
def jsJsonParse (s : String) : JsParseResult :=
  match parseValue (s.data.length + 2) (skipWs s.data) with
  | some (v, rest) =>
    if skipWs rest = [] then
      match v with
      | JsValShape.arrayOf es =>
        match allInts es with
        | some l => JsParseResult.intArray l
        | none => JsParseResult.otherArray
      | _ => JsParseResult.nonArray
    else JsParseResult.parseError
  | none => JsParseResult.parseError

/-- Outcome of the external classification call inside
`identifyRelevantPages`: the call threw, or it returned a response whose
message has no content, or it returned text. -/
inductive TriageOutcome
  | threw (message : String)
  | noText
  | text (raw : String)
deriving DecidableEq

/-- `identifyRelevantPages` of `src/lib/openai.ts` (lines 387–456), after
the classification call: a thrown error propagates (there is no enclosing
`try`), a response without text raises `No response from OpenAI` (lines
429–432), and text is decoded by `JSON.parse` followed by `Array.isArray`
(lines 440–455): a decoded array is returned as-is, while both a parse
failure and a non-array value yield the fallback `[1, 2, 3]`.  A decoded
array that contains a non-integer element is likewise returned as-is by the
source; its entries have no counterpart among the integer page numbers of
this embedding, so that branch returns an empty placeholder here, and no
theorem in this file relies on it. -/
def identifyRelevantPages (resp : TriageOutcome) : Except String (List Int) :=
  match resp with
  | .threw message => .error message
  | .noText => .error ("No response from OpenAI")
  | .text raw =>
    match jsJsonParse raw with
    | JsParseResult.intArray values => .ok values
    | JsParseResult.otherArray => .ok []
    | JsParseResult.nonArray => .ok [1, 2, 3]
    | JsParseResult.parseError => .ok [1, 2, 3]

/-- Modelled from the spec: the decoding policy of §4.2 names a second step
that is absent from `identifyRelevantPages` — "attempt to locate an embedded
array-like substring and decode that".  The embedded array-like substring is
taken from the first opening bracket through the last closing bracket,
mirroring the greedy object-extraction regex the repository uses elsewhere
(`generateDocumentSummary`). -/
def specExtractArray (s : String) : Option String :=
  match s.data.findIdx? (fun c => c = '['), s.data.reverse.findIdx? (fun c => c = ']') with
  | some i, some j =>
    let lastIdx := s.data.length - 1 - j
    if i ≤ lastIdx then some ⟨(s.data.drop i).take (lastIdx + 1 - i)⟩ else none
  | _, _ => none

/-- Modelled from the spec: the three-step decoding policy of §4.2 — direct
decode, then decode of an embedded array-like substring, then the fixed
default `[1, 2, 3]` (stated over the integer arrays this embedding
represents). -/
def specTriageDecode (s : String) : List Int :=
  match jsJsonParse s with
  | JsParseResult.intArray l => l
  | _ =>
    match specExtractArray s with
    | some sub =>
      match jsJsonParse sub with
      | JsParseResult.intArray l => l
      | _ => [1, 2, 3]
    | none => [1, 2, 3]

/-- The fixed fallback answer of `processQuery`
(`src/lib/query-agent.ts`, line 213). -/
def fallbackAnswer : String :=
  "No answer could be generated from the available content."

/-- Models `response.choices[0]?.message.content || fallback`
(`src/lib/query-agent.ts`, line 213): a missing or empty completion text
yields the fixed fallback string. -/
def synthAnswer (completionText : Option String) : String :=
  match completionText with
  | none => fallbackAnswer
  | some s => if s = "" then fallbackAnswer else s

/-- The keyword tokenization of `processQuery`
(`src/lib/query-agent.ts`, line 150): lowercase the query, split on single
spaces, keep words longer than 3 characters. -/
def queryKeywords (query : String) : List String :=
  (jsSplitSpace (jsToLower query)).filter (fun word => jsStrLen word > 3)

/-- The candidate pass of `processQuery` (`src/lib/query-agent.ts`, lines
138–147): for each of the first 5 triage page numbers, look the page up and,
when present, emit a source with 1000-character excerpt and relevance 1.0. -/
def candidateSources (documents : List DocumentPage)
    (relevantPageNumbers : List Int) : List SourceItem :=
  (relevantPageNumbers.take 5).filterMap (fun pageNbr =>
    (documents.find? (fun p => p.pageNbr == pageNbr)).map (fun page =>
      ({ pageNbr := pageNbr
         content := jsSubstr page.content 1000
         relevance := 1 } : SourceItem)))

/-- One iteration of the keyword scan of `processQuery`
(`src/lib/query-agent.ts`, lines 151–171): pages already in the full triage
list are skipped; otherwise the page is admitted when its raw score exceeds
2 and fewer than 10 sources have been collected, with an 800-character
excerpt and the score normalized by the keyword count (`Rat.divInt` models
the JavaScript division exactly on these operands). -/
def scanStep (relevantPageNumbers : List Int) (keywords : List String)
    (sources : List SourceItem) (page : DocumentPage) : List SourceItem :=
  if relevantPageNumbers.contains page.pageNbr then sources
  else
    let relevanceScore := scanPageScore page keywords
    if relevanceScore > 2 ∧ sources.length < 10 then
      sources ++ [({ pageNbr := page.pageNbr
                     content := jsSubstr page.content 800
                     relevance := Rat.divInt relevanceScore (keywords.length : Int) } : SourceItem)]
    else sources

/-- The full keyword scan of `processQuery` over the corpus, threading the
running `sources` array. -/
def scanSources (documents : List DocumentPage) (relevantPageNumbers : List Int)
    (keywords : List String) (init : List SourceItem) : List SourceItem :=
  documents.foldl (scanStep relevantPageNumbers keywords) init

/-- First-occurrence deduplication; models the iteration order of
`Array.from(new Set(...))` (`src/lib/query-agent.ts`, line 217): a JavaScript
`Set` keeps insertion order and ignores later duplicates. -/
def dedupKeepFirst : List Int → List Int
  | [] => []
  | x :: xs => x :: (dedupKeepFirst xs).filter (fun y => y ≠ x)

/-- The body of `ForagerQueryAgent.processQuery` after the triage call
(`src/lib/query-agent.ts`, lines 137–221): candidate pass, keyword scan,
in-place stable sort of `sources` by descending relevance (line 174 — the
sort happens before `relevantPages` is assembled on line 217), answer
synthesis, and result assembly.  `steps` stays at its initial 0 (the `step`
variable is never incremented). -/
def processQueryCore (documents : List DocumentPage) (query : String)
    (relevantPageNumbers : List Int) (completionText : Option String) :
    QueryAgentResult :=
  let keywords := queryKeywords query
  let initial := candidateSources documents relevantPageNumbers
  let collected := scanSources documents relevantPageNumbers keywords initial
  let sorted := sortDescBy (fun s => s.relevance) collected
  { answer := synthAnswer completionText
    relevantPages := dedupKeepFirst (relevantPageNumbers ++ sorted.map (fun s => s.pageNbr))
    sources := sorted.take 5
    steps := 0 }

/-- The external services contacted during a query. -/
inductive ExtCall
  | classification
  | completion
deriving DecidableEq

/-- `ForagerQueryAgent.processQuery` (`src/lib/query-agent.ts`, lines
122–221): the triage call is awaited with no enclosing `try`, so an error
from `identifyRelevantPages` propagates to the caller; on success the body
runs and the completion call is issued.  The second component records which
external calls were issued. -/
def processQuery (documents : List DocumentPage) (query : String)
    (triage : TriageOutcome) (completionText : Option String) :
    Except String QueryAgentResult × List ExtCall :=
  match identifyRelevantPages triage with
  | .error e => (.error e, [.classification])
  | .ok relevantPageNumbers =>
    (.ok (processQueryCore documents query relevantPageNumbers completionText),
     [.classification, .completion])

/-- The `queryDocument` procedure of `src/server/router.ts` (lines 119–159):
the assembled corpus is checked for emptiness before the agent is
constructed — `throw new Error(...)` with the message
`No documents available to query` — and every error is rewrapped by the
`catch` as `Query processing failed: ...` (interpolating an `Error` object
prefixes its message with `Error: `). -/
def queryDocument (documents : List DocumentPage) (query : String)
    (triage : TriageOutcome) (completionText : Option String) :
    Except String QueryAgentResult × List ExtCall :=
  if documents.length = 0 then
    (.error ("Query processing failed: Error: No documents available to query"), [])
  else
    match processQuery documents query triage completionText with
    | (.error e, calls) => (.error ("Query processing failed: Error: " ++ e), calls)
    | (.ok r, calls) => (.ok r, calls)

/-! Helper lemmas about the stable sort, deduplication, and the two source
passes.  These are shared infrastructure for the claim theorems. -/

/-- Inserting stably is a permutation of consing. -/
theorem insertDescBy_perm {α β : Type} [LinearOrder β] (key : α → β) (x : α) :
    ∀ l : List α, List.Perm (insertDescBy key x l) (x :: l)
  | [] => List.Perm.refl _
  | y :: ys => by
    simp only [insertDescBy]
    split
    · exact ((insertDescBy_perm key x ys).cons y).trans (List.Perm.swap x y ys)
    · exact List.Perm.refl _

/-- Membership in a stable insertion. -/
theorem mem_insertDescBy {α β : Type} [LinearOrder β] {key : α → β} {x a : α}
    {l : List α} : a ∈ insertDescBy key x l ↔ a = x ∨ a ∈ l := by
  rw [(insertDescBy_perm key x l).mem_iff, List.mem_cons]

/-- The stable sort permutes its input. -/
theorem sortDescBy_perm {α β : Type} [LinearOrder β] (key : α → β) :
    ∀ l : List α, List.Perm (sortDescBy key l) l
  | [] => List.Perm.refl _
  | x :: xs =>
    (insertDescBy_perm key x (sortDescBy key xs)).trans
      ((sortDescBy_perm key xs).cons x)

/-- Stable insertion preserves descending sortedness. -/
theorem insertDescBy_pairwise {α β : Type} [LinearOrder β] (key : α → β) (x : α) :
    ∀ l : List α, l.Pairwise (fun a b => key b ≤ key a) →
      (insertDescBy key x l).Pairwise (fun a b => key b ≤ key a)
  | [], _ => by simp [insertDescBy]
  | y :: ys, h => by
    rw [List.pairwise_cons] at h
    obtain ⟨h1, h2⟩ := h
    simp only [insertDescBy]
    split
    · rename_i hxy
      rw [List.pairwise_cons]
      refine ⟨fun b hb => ?_, insertDescBy_pairwise key x ys h2⟩
      rcases mem_insertDescBy.mp hb with hb | hb
      · exact hb ▸ le_of_lt hxy
      · exact h1 b hb
    · rename_i hxy
      rw [List.pairwise_cons]
      refine ⟨fun b hb => ?_, List.pairwise_cons.mpr ⟨h1, h2⟩⟩
      rcases List.mem_cons.mp hb with hb | hb
      · exact hb ▸ le_of_not_lt hxy
      · exact le_trans (h1 b hb) (le_of_not_lt hxy)

/-- The stable sort yields a descending-sorted list. -/
theorem sortDescBy_pairwise {α β : Type} [LinearOrder β] (key : α → β) :
    ∀ l : List α, (sortDescBy key l).Pairwise (fun a b => key b ≤ key a)
  | [] => List.Pairwise.nil
  | x :: xs =>
    insertDescBy_pairwise key x (sortDescBy key xs) (sortDescBy_pairwise key xs)

/-- Stable insertion commutes with filtering by an exact key value. -/
theorem insertDescBy_filter {α β : Type} [LinearOrder β] (key : α → β) (x : α)
    (q : β) : ∀ l : List α,
      (insertDescBy key x l).filter (fun a => decide (key a = q)) =
        ((x :: l).filter (fun a => decide (key a = q)))
  | [] => rfl
  | y :: ys => by
    have ih := insertDescBy_filter key x q ys
    by_cases hxy : key x < key y
    · simp only [insertDescBy, if_pos hxy]
      by_cases hx : key x = q
      · have hy : ¬ key y = q := fun hyq =>
          absurd hxy (by rw [hx, hyq]; exact lt_irrefl q)
        simp only [List.filter_cons, decide_eq_true hx, decide_eq_false hy] at ih ⊢
        simpa using ih
      · by_cases hy : key y = q
        · simp only [List.filter_cons, decide_eq_false hx, decide_eq_true hy] at ih ⊢
          simpa using ih
        · simp only [List.filter_cons, decide_eq_false hx, decide_eq_false hy] at ih ⊢
          simpa using ih
    · simp only [insertDescBy, if_neg hxy]

/-- The stable sort leaves the subsequence of any fixed key value unchanged:
this is the stability property (tied elements keep their original relative
order). -/
theorem sortDescBy_filter {α β : Type} [LinearOrder β] (key : α → β) (q : β) :
    ∀ l : List α,
      (sortDescBy key l).filter (fun a => decide (key a = q)) =
        l.filter (fun a => decide (key a = q))
  | [] => rfl
  | x :: xs => by
    have ih := sortDescBy_filter key q xs
    simp only [sortDescBy]
    rw [insertDescBy_filter key x q (sortDescBy key xs), List.filter_cons,
      List.filter_cons, ih]

/-- Two descending-sorted lists with identical key-value subsequences are
equal: sortedness plus stability determines the list. -/
theorem sorted_filter_unique {α β : Type} [LinearOrder β] (key : α → β) :
    ∀ l₁ l₂ : List α, l₁.Pairwise (fun a b => key b ≤ key a) →
      l₂.Pairwise (fun a b => key b ≤ key a) →
      (∀ q, l₁.filter (fun a => decide (key a = q)) =
        l₂.filter (fun a => decide (key a = q))) →
      l₁ = l₂
  | [], [], _, _, _ => rfl
  | [], y :: ys, _, _, hf => by
    have h := hf (key y)
    rw [List.filter_cons_of_pos (by simp)] at h
    simp at h
  | x :: xs, [], _, _, hf => by
    have h := hf (key x)
    rw [List.filter_cons_of_pos (by simp)] at h
    simp at h
  | x :: xs, y :: ys, h₁, h₂, hf => by
    rw [List.pairwise_cons] at h₁ h₂
    obtain ⟨hx1, hx2⟩ := h₁
    obtain ⟨hy1, hy2⟩ := h₂
    have hxy : key x = key y := by
      have hmx : x ∈ (y :: ys).filter (fun a => decide (key a = key x)) := by
        rw [← hf (key x), List.filter_cons_of_pos (by simp)]
        exact List.mem_cons_self x _
      have hmy : y ∈ (x :: xs).filter (fun a => decide (key a = key y)) := by
        rw [hf (key y), List.filter_cons_of_pos (by simp)]
        exact List.mem_cons_self y _
      have hxley : key x ≤ key y := by
        rcases List.mem_cons.mp (List.mem_filter.mp hmx).1 with h | h
        · rw [h]
        · exact hy1 x h
      have hylex : key y ≤ key x := by
        rcases List.mem_cons.mp (List.mem_filter.mp hmy).1 with h | h
        · rw [h]
        · exact hx1 y h
      exact le_antisymm hxley hylex
    have hheads := hf (key x)
    rw [List.filter_cons_of_pos (by simp), List.filter_cons_of_pos (by simp [hxy])]
      at hheads
    obtain ⟨hxeqy, hfx⟩ := List.cons.inj hheads
    have htails : ∀ q, xs.filter (fun a => decide (key a = q)) =
        ys.filter (fun a => decide (key a = q)) := by
      intro q
      by_cases hq : key x = q
      · rw [← hq]
        exact hfx
      · have h := hf q
        rw [List.filter_cons_of_neg (by simp [hq]),
          List.filter_cons_of_neg (by simp [hxy ▸ hq])] at h
        exact h
    rw [hxeqy, sorted_filter_unique key xs ys hx2 hy2 htails]

/-- Deduplication produces a list without duplicates. -/
theorem dedupKeepFirst_nodup : ∀ l : List Int, (dedupKeepFirst l).Nodup
  | [] => List.nodup_nil
  | x :: xs => by
    simp only [dedupKeepFirst]
    rw [List.nodup_cons]
    constructor
    · intro hx
      have := (List.mem_filter.mp hx).2
      simp at this
    · exact (dedupKeepFirst_nodup xs).filter _

/-- Deduplication preserves membership. -/
theorem mem_dedupKeepFirst {a : Int} : ∀ {l : List Int},
    a ∈ dedupKeepFirst l ↔ a ∈ l
  | [] => Iff.rfl
  | x :: xs => by
    simp only [dedupKeepFirst, List.mem_cons, List.mem_filter]
    constructor
    · rintro (h | ⟨h, _⟩)
      · exact Or.inl h
      · exact Or.inr (mem_dedupKeepFirst.mp h)
    · rintro (h | h)
      · exact Or.inl h
      · by_cases hax : a = x
        · exact Or.inl hax
        · exact Or.inr ⟨mem_dedupKeepFirst.mpr h, by simpa using hax⟩

/-- The keyword scan only ever appends to the running source list. -/
theorem scanSources_eq_append (cands : List Int) (keywords : List String) :
    ∀ (documents : List DocumentPage) (init : List SourceItem),
      ∃ t, scanSources documents cands keywords init = init ++ t
  | [], init => ⟨[], by simp [scanSources]⟩
  | page :: docs, init => by
    have hstep : ∃ u, scanStep cands keywords init page = init ++ u := by
      simp only [scanStep]
      by_cases hc : cands.contains page.pageNbr
      · rw [if_pos hc]
        exact ⟨[], by simp⟩
      · rw [if_neg hc]
        by_cases hadm : scanPageScore page keywords > 2 ∧ init.length < 10
        · rw [if_pos hadm]
          exact ⟨_, rfl⟩
        · rw [if_neg hadm]
          exact ⟨[], by simp⟩
    obtain ⟨u, hu⟩ := hstep
    obtain ⟨t, ht⟩ := scanSources_eq_append cands keywords docs (init ++ u)
    refine ⟨u ++ t, ?_⟩
    simp only [scanSources, List.foldl_cons] at ht ⊢
    rw [hu, ht, List.append_assoc]

/-- Every source produced by the keyword scan either was already present or
belongs to a page outside the full triage list. -/
theorem mem_scanSources {cands : List Int} {keywords : List String} :
    ∀ {documents : List DocumentPage} {init : List SourceItem} {s : SourceItem},
      s ∈ scanSources documents cands keywords init →
        s ∈ init ∨ cands.contains s.pageNbr = false
  | [], _, s, h => Or.inl (by simpa [scanSources] using h)
  | page :: docs, init, s, h => by
    simp only [scanSources, List.foldl_cons] at h
    rcases @mem_scanSources cands keywords docs (scanStep cands keywords init page)
        s h with hmem | hout
    · simp only [scanStep] at hmem
      by_cases hc : cands.contains page.pageNbr
      · rw [if_pos hc] at hmem
        exact Or.inl hmem
      · rw [if_neg hc] at hmem
        split at hmem
        · rcases List.mem_append.mp hmem with hmem | hmem
          · exact Or.inl hmem
          · refine Or.inr ?_
            have hs : s.pageNbr = page.pageNbr := by
              simp only [List.mem_singleton] at hmem
              rw [hmem]
            rw [hs]
            exact Bool.eq_false_iff.mpr hc
        · exact Or.inl hmem
    · exact Or.inr hout

/-- Every source produced by the candidate pass carries one of the first 5
triage page numbers and the fixed relevance 1. -/
theorem mem_candidateSources {documents : List DocumentPage} {cands : List Int}
    {s : SourceItem} (h : s ∈ candidateSources documents cands) :
    s.pageNbr ∈ cands.take 5 ∧ s.relevance = 1 := by
  unfold candidateSources at h
  rw [List.mem_filterMap] at h
  obtain ⟨n, hn, hsome⟩ := h
  rw [Option.map_eq_some'] at hsome
  obtain ⟨page, _, hpage⟩ := hsome
  rw [← hpage]
  exact ⟨hn, rfl⟩

/-! Claim theorems. -/

/-- Claim C7 (confirmed): for every query, the `sources` field of the result
has length at most 5 and is sorted in descending order of `relevanceScore`;
ties between equal scores preserve the original discovery order — the stable
sort leaves the subsequence of sources at any fixed score value exactly as it
was discovered (candidate pages pushed before scanned pages, each in
discovery order), stated as the filter-invariance of the sort. -/
theorem c7_sources_bounded_sorted_stable (documents : List DocumentPage)
    (query : String) (cands : List Int) (completionText : Option String) :
    (processQueryCore documents query cands completionText).sources.length ≤ 5 ∧
    (processQueryCore documents query cands completionText).sources.Pairwise
      (fun a b => b.relevance ≤ a.relevance) ∧
    (∀ q : ℚ,
      (sortDescBy (fun s : SourceItem => s.relevance)
        (scanSources documents cands (queryKeywords query)
          (candidateSources documents cands))).filter
            (fun s => decide (s.relevance = q)) =
      (scanSources documents cands (queryKeywords query)
        (candidateSources documents cands)).filter
          (fun s => decide (s.relevance = q))) := by
  refine ⟨?_, ?_, fun q => sortDescBy_filter (fun s : SourceItem => s.relevance) q _⟩
  · show ((sortDescBy (fun s : SourceItem => s.relevance)
      (scanSources documents cands (queryKeywords query)
        (candidateSources documents cands))).take 5).length ≤ 5
    rw [List.length_take]
    exact min_le_left _ _
  · exact List.Pairwise.sublist (List.take_sublist 5 _)
      (sortDescBy_pairwise (fun s : SourceItem => s.relevance) _)

/-- Claim C8 (confirmed): when the completion service succeeds but returns no
text (`none`) or empty text, the agent does not fail: the answer is the fixed
fallback string and the `sources` field is exactly what it would be for any
other completion outcome — it is computed from the aggregated evidence
independently of the completion text. -/
theorem c8_empty_completion_fallback (documents : List DocumentPage)
    (query : String) (cands : List Int) :
    (processQueryCore documents query cands none).answer = fallbackAnswer ∧
    (processQueryCore documents query cands (some (""))).answer = fallbackAnswer ∧
    ∀ completionText : Option String,
      (processQueryCore documents query cands completionText).sources =
        (processQueryCore documents query cands none).sources :=
  ⟨rfl, rfl, fun _ => rfl⟩

/-- Claim C9 (confirmed): every page number returned by the triage call is
kept in `relevantPages` — the deduplicated set is built from the full,
uncapped triage list, so numbers beyond the first five candidates and numbers
matching no page of the corpus all appear. -/
theorem c9_triage_numbers_in_relevantPages (documents : List DocumentPage)
    (query : String) (cands : List Int) (completionText : Option String)
    (n : Int) (h : n ∈ cands) :
    n ∈ (processQueryCore documents query cands completionText).relevantPages :=
  mem_dedupKeepFirst.mpr (List.mem_append.mpr (Or.inl h))

/-- Witness for C9 at a concrete input: page number 7 is returned by triage
but matches no page of the (empty) corpus, and still appears in
`relevantPages`. -/
theorem c9_witness : (7 : Int) ∈ ([7] : List Int) ∧
    (7 : Int) ∈ (processQueryCore [] ("q") [7] none).relevantPages :=
  ⟨by decide, c9_triage_numbers_in_relevantPages [] ("q") [7] none 7 (by decide)⟩

/-- Counterexample to claim C2 as stated: on a corpus with zero pages,
`processQuery` itself does not fail fast — it completes successfully and
issues both the classification call and the completion call. -/
theorem c2_counterexample :
    processQuery ([] : List DocumentPage) ("q") (TriageOutcome.text ("[1]"))
      (some ("ans")) =
    (Except.ok
      ({ answer := "ans", relevantPages := [1], sources := [], steps := 0 } :
        QueryAgentResult),
      [ExtCall.classification, ExtCall.completion]) := by decide

/-- Claim C2 as amended: the empty-corpus check lives in the request handler
`queryDocument`, not in `processQuery` — for a corpus with zero pages
`queryDocument` fails fast with the descriptive error and issues no
external-service call. -/
theorem c2_amended (query : String) (triage : TriageOutcome)
    (completionText : Option String) :
    queryDocument [] query triage completionText =
      (Except.error
        ("Query processing failed: Error: No documents available to query"),
       ([] : List ExtCall)) := rfl

/-- Claim C4 as amended: `relevantPages` contains no duplicate page numbers,
and its order is the deduplication of the full triage candidate list followed
by the page numbers of the evidence set in relevance-sorted order (the code
sorts `sources` in place before assembling `relevantPages`), not in discovery
order. -/
theorem c4_amended (documents : List DocumentPage) (query : String)
    (cands : List Int) (completionText : Option String) :
    (processQueryCore documents query cands completionText).relevantPages.Nodup ∧
    (processQueryCore documents query cands completionText).relevantPages =
      dedupKeepFirst (cands ++
        (sortDescBy (fun s : SourceItem => s.relevance)
          (scanSources documents cands (queryKeywords query)
            (candidateSources documents cands))).map (fun s : SourceItem => s.pageNbr)) :=
  ⟨dedupKeepFirst_nodup _, rfl⟩

/-- Counterexample to claim C4 as stated: the scanned pages enter
`relevantPages` in relevance-sort order, not discovery order — page 3 is
discovered after page 2 but scores higher (4 versus 3), and `relevantPages`
lists it first. -/
theorem c4_counterexample :
    (processQueryCore
      [⟨1, none, "intro", "", [], []⟩,
       ⟨2, none, "alpha", "alpha", [], []⟩,
       ⟨3, none, "alpha", "alpha", [("alpha")], []⟩]
      ("alpha") [1] (some ("x"))).relevantPages = [1, 3, 2] ∧
    ([1, 3, 2] : List Int) ≠ [1, 2, 3] := by decide

/-- Counterexample to claim C1 as stated: when the classification call throws
or yields no text, no local recovery happens — `identifyRelevantPages` raises
and `processQuery` propagates the error to its caller, even with pages 1, 2
and 3 present in the corpus; only the classification call was issued. -/
theorem c1_counterexample :
    processQuery
        [⟨1, none, "alpha", "", [], []⟩,
         ⟨2, none, "beta", "", [], []⟩,
         ⟨3, none, "gamma", "", [], []⟩] ("query") TriageOutcome.noText
        (some ("x")) =
      (Except.error ("No response from OpenAI"), [ExtCall.classification]) ∧
    processQuery
        [⟨1, none, "alpha", "", [], []⟩,
         ⟨2, none, "beta", "", [], []⟩,
         ⟨3, none, "gamma", "", [], []⟩] ("query")
        (TriageOutcome.threw ("boom")) (some ("x")) =
      (Except.error ("boom"), [ExtCall.classification]) := by decide

/-- Claim C1 as amended: only a triage response whose text is not valid
JSON, or is valid JSON that is not an array, is recovered locally —
`processQuery` then completes with the default candidate set `[1, 2, 3]`,
and pages 1, 2 and 3 all appear in `relevantPages` (whether or not they
exist in the corpus); a thrown classification error or a response with no
text is fatal instead, and a decoded array is used as-is, never replaced by
the default. -/
theorem c1_amended (documents : List DocumentPage) (query raw : String)
    (completionText : Option String)
    (h : jsJsonParse raw = JsParseResult.parseError ∨
      jsJsonParse raw = JsParseResult.nonArray) :
    processQuery documents query (TriageOutcome.text raw) completionText =
      (Except.ok (processQueryCore documents query [1, 2, 3] completionText),
       [ExtCall.classification, ExtCall.completion]) ∧
    (1 : Int) ∈ (processQueryCore documents query [1, 2, 3]
      completionText).relevantPages ∧
    (2 : Int) ∈ (processQueryCore documents query [1, 2, 3]
      completionText).relevantPages ∧
    (3 : Int) ∈ (processQueryCore documents query [1, 2, 3]
      completionText).relevantPages := by
  refine ⟨?_, ?_, ?_, ?_⟩
  · rcases h with h | h <;> simp [processQuery, identifyRelevantPages, h]
  · exact mem_dedupKeepFirst.mpr (List.mem_append.mpr (Or.inl (by decide)))
  · exact mem_dedupKeepFirst.mpr (List.mem_append.mpr (Or.inl (by decide)))
  · exact mem_dedupKeepFirst.mpr (List.mem_append.mpr (Or.inl (by decide)))

/-- Witness for the amended C1 at a concrete input: the text `garbage` is
not valid JSON, the query completes with candidates `[1, 2, 3]`, and all
three default pages appear in `relevantPages`. -/
theorem c1_amended_witness :
    (jsJsonParse ("garbage") = JsParseResult.parseError ∨
      jsJsonParse ("garbage") = JsParseResult.nonArray) ∧
    (processQuery [] ("q") (TriageOutcome.text ("garbage")) none =
      (Except.ok (processQueryCore [] ("q") [1, 2, 3] none),
       [ExtCall.classification, ExtCall.completion]) ∧
     (1 : Int) ∈ (processQueryCore [] ("q") [1, 2, 3] none).relevantPages ∧
     (2 : Int) ∈ (processQueryCore [] ("q") [1, 2, 3] none).relevantPages ∧
     (3 : Int) ∈ (processQueryCore [] ("q") [1, 2, 3] none).relevantPages) :=
  ⟨Or.inl (by decide),
   c1_amended [] ("q") ("garbage") none (Or.inl (by decide))⟩

/-- Counterexample to claim C5 as stated: the decoding policy of
`identifyRelevantPages` has no embedded-array extraction step — on a response
whose text embeds the array `[4, 5]` inside surrounding prose, the code falls
back to `[1, 2, 3]` while the three-step policy described by the spec would
decode `[4, 5]`. -/
theorem c5_counterexample :
    identifyRelevantPages (TriageOutcome.text ("pages: [4, 5]")) =
      Except.ok [1, 2, 3] ∧
    specTriageDecode ("pages: [4, 5]") = [4, 5] ∧
    ([4, 5] : List Int) ≠ [1, 2, 3] := by decide

/-- Claim C5 as amended: the decoding policy has two steps, not three — a
direct JSON decode whose array result is used as-is (stated here for the
integer arrays expressible as page numbers), with a parse failure and a
non-array value both yielding the fixed default `[1, 2, 3]`; there is no
embedded-array-substring step, and no parse failure escapes the page
selector: on response text, `identifyRelevantPages` never raises. -/
theorem c5_amended (raw : String) :
    (∀ e, identifyRelevantPages (TriageOutcome.text raw) ≠ Except.error e) ∧
    (∀ l, jsJsonParse raw = JsParseResult.intArray l →
      identifyRelevantPages (TriageOutcome.text raw) = Except.ok l) ∧
    (jsJsonParse raw = JsParseResult.nonArray →
      identifyRelevantPages (TriageOutcome.text raw) = Except.ok [1, 2, 3]) ∧
    (jsJsonParse raw = JsParseResult.parseError →
      identifyRelevantPages (TriageOutcome.text raw) = Except.ok [1, 2, 3]) := by
  refine ⟨?_, ?_, ?_, ?_⟩
  · intro e
    cases hp : jsJsonParse raw <;> simp [identifyRelevantPages, hp]
  · intro l hp
    simp [identifyRelevantPages, hp]
  · intro hp
    simp [identifyRelevantPages, hp]
  · intro hp
    simp [identifyRelevantPages, hp]

/-- Witness for the amended C5 at concrete inputs: an integer array is used
as-is, and a non-array value and a parse failure both yield the default. -/
theorem c5_amended_witness :
    (jsJsonParse ("[4, 5]") = JsParseResult.intArray [4, 5] ∧
      identifyRelevantPages (TriageOutcome.text ("[4, 5]")) =
        Except.ok [4, 5]) ∧
    (jsJsonParse ("7") = JsParseResult.nonArray ∧
      identifyRelevantPages (TriageOutcome.text ("7")) =
        Except.ok [1, 2, 3]) ∧
    (jsJsonParse ("notjson") = JsParseResult.parseError ∧
      identifyRelevantPages (TriageOutcome.text ("notjson")) =
        Except.ok [1, 2, 3]) :=
  ⟨⟨by decide, (c5_amended ("[4, 5]")).2.1 [4, 5] (by decide)⟩,
   ⟨by decide, (c5_amended ("7")).2.2.1 (by decide)⟩,
   ⟨by decide, (c5_amended ("notjson")).2.2.2 (by decide)⟩⟩

/-- Rewrites the accumulating fold of the scoring loops as a sum. -/
theorem foldl_add_int (f : String → Int) :
    ∀ (l : List String) (init : Int),
      l.foldl (fun acc kw => acc + f kw) init = init + (l.map f).sum
  | [], init => by simp
  | kw :: kws, init => by
    simp only [List.foldl_cons, List.map_cons, List.sum_cons]
    rw [foldl_add_int f kws (init + f kw)]
    ring

/-- The `searchPages` score is the sum of its per-keyword points. -/
theorem searchPageScore_eq_sum (page : DocumentPage) (keywords : List String) :
    searchPageScore page keywords =
      (keywords.map (searchKeywordPoints page)).sum := by
  unfold searchPageScore
  rw [foldl_add_int (searchKeywordPoints page) keywords 0]
  ring

/-- The keyword-scan score is the sum of its per-keyword points. -/
theorem scanPageScore_eq_sum (page : DocumentPage) (keywords : List String) :
    scanPageScore page keywords =
      (keywords.map (scanKeywordPoints page)).sum := by
  unfold scanPageScore
  rw [foldl_add_int (scanKeywordPoints page) keywords 0]
  ring

/-- Per-keyword relation between the two scoring functions on an
already-lowercase keyword: the two agree on the summary weight (2) and the
tag weight (1) but differ by exactly 2 on a content match (3 versus 1). -/
theorem searchKeywordPoints_eq_scan (page : DocumentPage) (kw : String)
    (h : jsToLower kw = kw) :
    searchKeywordPoints page kw =
      scanKeywordPoints page kw +
        2 * (if jsIncludes (jsToLower page.content) kw then 1 else 0) := by
  have key : ∀ b1 b2 b3 : Bool,
      (if b1 then (3 : Int) else 0) + (if b2 then 2 else 0) +
        (if b3 then 1 else 0) =
      ((if b1 then (1 : Int) else 0) + (if b2 then 2 else 0) +
        (if b3 then 1 else 0)) + 2 * (if b1 then 1 else 0) := by decide
  simp only [searchKeywordPoints, scanKeywordPoints, h, List.any_map]
  exact key _ _ _

/-- Summed form of the relation between the two scoring functions. -/
theorem sum_scan_search_relation (page : DocumentPage) :
    ∀ l : List String, (∀ kw ∈ l, jsToLower kw = kw) →
      (l.map (searchKeywordPoints page)).sum =
        (l.map (scanKeywordPoints page)).sum +
          2 * ((l.filter
            (fun kw => jsIncludes (jsToLower page.content) kw)).length : Int)
  | [], _ => by simp
  | kw :: kws, h => by
    have hkw := h kw (by simp)
    have hrest : ∀ k ∈ kws, jsToLower k = k := fun k hk => h k (by simp [hk])
    have ih := sum_scan_search_relation page kws hrest
    simp only [List.map_cons, List.sum_cons, List.filter_cons]
    rw [searchKeywordPoints_eq_scan page kw hkw, ih]
    cases hc : jsIncludes (jsToLower page.content) kw
    · simp [hc]
      ring
    · simp [hc]
      ring

/-- Counterexample to claim C3 as stated: the two scoring functions disagree —
on a page whose content contains the keyword (and whose summary and tags do
not), `searchPages` awards 3 while the aggregation scan awards 1. -/
theorem c3_counterexample :
    searchPageScore ⟨1, none, "alpha beta", "", [], []⟩ [("alpha")] = 3 ∧
    scanPageScore ⟨1, none, "alpha beta", "", [], []⟩ [("alpha")] = 1 ∧
    (3 : Int) ≠ 1 := by decide

/-- Claim C3 as amended: the aggregation scan and the `searchPages` scorer
share the summary weight (2) and the tag weight (1) but weight a content
match 1 versus 3 — on lowercase keywords the `searchPages` score exceeds the
scan score by exactly 2 for every keyword matching the page content, so the
two agree exactly on pages whose content matches no keyword. -/
theorem c3_amended (page : DocumentPage) (keywords : List String)
    (h : ∀ kw ∈ keywords, jsToLower kw = kw) :
    searchPageScore page keywords =
      scanPageScore page keywords +
        2 * ((keywords.filter
          (fun kw => jsIncludes (jsToLower page.content) kw)).length : Int) := by
  rw [searchPageScore_eq_sum, scanPageScore_eq_sum]
  exact sum_scan_search_relation page keywords h

/-- Witness for the amended C3 at a concrete input. -/
theorem c3_amended_witness :
    (∀ kw ∈ ([("alpha")] : List String), jsToLower kw = kw) ∧
    searchPageScore ⟨2, none, "alpha beta", "", [], []⟩ [("alpha")] =
      scanPageScore ⟨2, none, "alpha beta", "", [], []⟩ [("alpha")] +
        2 * ((([("alpha")] : List String).filter
          (fun kw => jsIncludes
            (jsToLower (⟨2, none, "alpha beta", "", [], []⟩ :
              DocumentPage).content) kw)).length : Int) :=
  ⟨by decide, c3_amended ⟨2, none, "alpha beta", "", [], []⟩ [("alpha")] (by decide)⟩

/-- Counterexample to claim C6 as stated: sorting does place keyword-scanned
pages ahead of triage-selected pages — pages 3 and 2 are scan-admitted (not
in the triage list `[1]`) with normalized scores 4 and 3, and both precede
triage page 1 (score 1) in the sorted `sources`. -/
theorem c6_counterexample :
    ((processQueryCore
      [⟨1, none, "intro", "", [], []⟩,
       ⟨2, none, "alpha", "alpha", [], []⟩,
       ⟨3, none, "alpha", "alpha", [("alpha")], []⟩]
      ("alpha") [1] (some ("x"))).sources.map
        (fun s : SourceItem => s.pageNbr) = [3, 2, 1]) ∧
    ((processQueryCore
      [⟨1, none, "intro", "", [], []⟩,
       ⟨2, none, "alpha", "alpha", [], []⟩,
       ⟨3, none, "alpha", "alpha", [("alpha")], []⟩]
      ("alpha") [1] (some ("x"))).sources.map
        (fun s : SourceItem => s.relevance) = [4, 3, 1]) ∧
    ((3 : Int) ∉ ([1] : List Int)) ∧ ((1 : Int) ∈ ([1] : List Int)) := by decide

/-- Claim C6 as amended: in the sorted evidence set, the scanned pages whose
normalized score exceeds 1.0 come first (sorted among themselves), then all
triage-selected pages in their discovery order (their scores are all fixed at
1.0, and the stable tie-break keeps them ahead of any scanned page whose
score equals 1.0), then the scanned pages with score at most 1.0. -/
theorem c6_amended (documents : List DocumentPage) (query : String)
    (cands : List Int) :
    sortDescBy (fun s : SourceItem => s.relevance)
        (scanSources documents cands (queryKeywords query)
          (candidateSources documents cands)) =
      sortDescBy (fun s : SourceItem => s.relevance)
          (((scanSources documents cands (queryKeywords query)
              (candidateSources documents cands)).drop
            (candidateSources documents cands).length).filter
              (fun s => decide (1 < s.relevance))) ++
        candidateSources documents cands ++
        sortDescBy (fun s : SourceItem => s.relevance)
          (((scanSources documents cands (queryKeywords query)
              (candidateSources documents cands)).drop
            (candidateSources documents cands).length).filter
              (fun s => decide (s.relevance ≤ 1))) := by
  set cs := candidateSources documents cands with hcs
  have hcs1 : ∀ c ∈ cs, c.relevance = 1 := by
    intro c hc
    rw [hcs] at hc
    exact (mem_candidateSources hc).2
  obtain ⟨ss, hss⟩ := scanSources_eq_append cands (queryKeywords query) documents cs
  rw [hss, List.drop_left]
  have hA : ∀ a ∈ sortDescBy (fun s : SourceItem => s.relevance)
      (ss.filter (fun s => decide (1 < s.relevance))), 1 < a.relevance := by
    intro a ha
    exact of_decide_eq_true
      (List.mem_filter.mp ((sortDescBy_perm _ _).mem_iff.mp ha)).2
  have hB : ∀ b ∈ sortDescBy (fun s : SourceItem => s.relevance)
      (ss.filter (fun s => decide (s.relevance ≤ 1))), b.relevance ≤ 1 := by
    intro b hb
    exact of_decide_eq_true
      (List.mem_filter.mp ((sortDescBy_perm _ _).mem_iff.mp hb)).2
  apply sorted_filter_unique (fun s : SourceItem => s.relevance)
  · exact sortDescBy_pairwise _ _
  · rw [List.pairwise_append, List.pairwise_append]
    refine ⟨⟨sortDescBy_pairwise _ _, ?_, ?_⟩, sortDescBy_pairwise _ _, ?_⟩
    · exact List.pairwise_of_forall_mem_list
        (fun a ha b hb => by simp [hcs1 a ha, hcs1 b hb])
    · intro a ha c hc
      rw [hcs1 c hc]
      exact le_of_lt (hA a ha)
    · intro a ha b hb
      rcases List.mem_append.mp ha with ha | ha
      · exact le_trans (hB b hb) (le_of_lt (hA a ha))
      · rw [hcs1 a ha]
        exact hB b hb
  · intro q
    simp only [sortDescBy_filter, List.filter_append, List.filter_filter]
    rcases lt_trichotomy q 1 with hq | hq | hq
    · have h1 : cs.filter (fun s : SourceItem => decide (s.relevance = q)) = [] := by
        rw [List.filter_eq_nil_iff]
        intro c hc
        rw [hcs1 c hc]
        simpa using (ne_of_lt hq).symm
      have h2 : ss.filter (fun a : SourceItem =>
          decide (a.relevance = q) && decide (1 < a.relevance)) = [] := by
        rw [List.filter_eq_nil_iff]
        intro a _
        simp only [Bool.and_eq_true, decide_eq_true_eq, not_and]
        intro haq ha1
        exact lt_asymm hq (haq ▸ ha1)
      have h3 : ss.filter (fun a : SourceItem =>
          decide (a.relevance = q) && decide (a.relevance ≤ 1)) =
            ss.filter (fun a : SourceItem => decide (a.relevance = q)) := by
        apply List.filter_congr
        intro a _
        by_cases haq : a.relevance = q
        · simp [haq, le_of_lt hq]
        · simp [haq]
      rw [h1, h2, h3]
      simp
    · have h1 : cs.filter (fun s : SourceItem => decide (s.relevance = q)) = cs := by
        rw [List.filter_eq_self]
        intro c hc
        simp [hcs1 c hc, hq]
      have h2 : ss.filter (fun a : SourceItem =>
          decide (a.relevance = q) && decide (1 < a.relevance)) = [] := by
        rw [List.filter_eq_nil_iff]
        intro a _
        simp only [Bool.and_eq_true, decide_eq_true_eq, not_and]
        intro haq ha1
        rw [hq] at haq
        exact absurd (haq ▸ ha1) (lt_irrefl 1)
      have h3 : ss.filter (fun a : SourceItem =>
          decide (a.relevance = q) && decide (a.relevance ≤ 1)) =
            ss.filter (fun a : SourceItem => decide (a.relevance = q)) := by
        apply List.filter_congr
        intro a _
        by_cases haq : a.relevance = q
        · simp [haq, hq]
        · simp [haq]
      rw [h1, h2, h3]
      simp
    · have h1 : cs.filter (fun s : SourceItem => decide (s.relevance = q)) = [] := by
        rw [List.filter_eq_nil_iff]
        intro c hc
        rw [hcs1 c hc]
        simpa using (ne_of_gt hq).symm
      have h2 : ss.filter (fun a : SourceItem =>
          decide (a.relevance = q) && decide (1 < a.relevance)) =
            ss.filter (fun a : SourceItem => decide (a.relevance = q)) := by
        apply List.filter_congr
        intro a _
        by_cases haq : a.relevance = q
        · simp [haq, hq]
        · simp [haq]
      have h3 : ss.filter (fun a : SourceItem =>
          decide (a.relevance = q) && decide (a.relevance ≤ 1)) = [] := by
        rw [List.filter_eq_nil_iff]
        intro a _
        simp only [Bool.and_eq_true, decide_eq_true_eq, not_and]
        intro haq hle
        exact absurd (haq ▸ hle) (not_le.mpr hq)
      rw [h1, h2, h3]
      simp

/-- Counterexample to claim C10 as stated: a page number appearing at triage
position six or later can still contribute to `sources` when it also appears
among the first five positions — with triage list `[1, 1, 1, 1, 1, 1]`, page
number 1 sits at position six yet fills `sources`. -/
theorem c10_counterexample :
    (1 : Int) ∈ (([1, 1, 1, 1, 1, 1] : List Int).drop 5) ∧
    (1 : Int) ∈ ((processQueryCore [⟨1, none, "intro", "", [], []⟩] ("alpha")
      [1, 1, 1, 1, 1, 1] (some ("x"))).sources.map
        (fun s : SourceItem => s.pageNbr)) := by decide

/-- Claim C10 as amended: a page whose number appears in the triage result
only at position six or later (that is, not among the first five entries)
never contributes an `EvidenceItem` to `sources`: the candidate pass is
capped at 5, and the keyword scan skips the page because the skip test checks
membership in the full, uncapped triage list. -/
theorem c10_amended (documents : List DocumentPage) (query : String)
    (cands : List Int) (completionText : Option String) (n : Int)
    (h1 : n ∈ cands.drop 5) (h2 : n ∉ cands.take 5) :
    n ∉ ((processQueryCore documents query cands completionText).sources.map
      (fun s : SourceItem => s.pageNbr)) := by
  intro hmem
  rw [List.mem_map] at hmem
  obtain ⟨s, hs, hpn⟩ := hmem
  have hs2 : s ∈ sortDescBy (fun s : SourceItem => s.relevance)
      (scanSources documents cands (queryKeywords query)
        (candidateSources documents cands)) :=
    List.Sublist.mem hs (List.take_sublist 5 _)
  have hs3 : s ∈ scanSources documents cands (queryKeywords query)
      (candidateSources documents cands) :=
    (sortDescBy_perm _ _).mem_iff.mp hs2
  rcases mem_scanSources hs3 with hinit | hout
  · exact h2 (hpn ▸ (mem_candidateSources hinit).1)
  · have hmemc : n ∈ cands := List.mem_of_mem_drop h1
    have hcont : cands.contains s.pageNbr = true := by
      rw [hpn]
      simp [List.contains, List.elem_iff, hmemc]
    rw [hout] at hcont
    exact Bool.noConfusion hcont

/-- Witness for the amended C10 at a concrete input: page number 7 appears
only at position six of the triage list and contributes no source. -/
theorem c10_amended_witness :
    ((7 : Int) ∈ (([1, 2, 3, 4, 5, 7] : List Int).drop 5)) ∧
    ((7 : Int) ∉ (([1, 2, 3, 4, 5, 7] : List Int).take 5)) ∧
    ((7 : Int) ∉ ((processQueryCore [] ("q") [1, 2, 3, 4, 5, 7] none).sources.map
      (fun s : SourceItem => s.pageNbr))) :=
  ⟨by decide, by decide,
    c10_amended [] ("q") [1, 2, 3, 4, 5, 7] none 7 (by decide) (by decide)⟩

end LLMExplorer
